import Mathlib

/-!
Verification of the Image Fetcher utility (src/lib.py): a shallow embedding
of its filename resolution, collision avoidance, download outcome handling
and interactive loop, together with theorems settling the frozen claims.

All Python string values are modelled as Lean `String` (lists of Unicode
scalar values), Python integers as `Nat`, and the ambient state the program
reads (HTTP response headers, the set of files already on disk, the current
local time, interactive answers) as explicit parameters.
-/

set_option linter.unusedVariables false

namespace ImageFetcher

/-! ### Decimal rendering of naturals (models Python `str(n)` / `strftime` digits) -/

/-- The decimal digit character for `d < 10` (models how Python prints digits). -/
def decChar (d : Nat) : Char := Char.ofNat (48 + d)

/-- Fuelled most-significant-digit-first decimal rendering; `fuel` bounds the
number of division steps so the recursion is structural. -/
def natDigitsAux : Nat → Nat → List Char
  | 0, _ => []
  | fuel + 1, n =>
    if n < 10 then [decChar n]
    else natDigitsAux fuel (n / 10) ++ [decChar (n % 10)]

/-- Decimal digits of `n`, most significant first; `n + 1` steps of fuel always
suffice. Models Python `str(n)` for a nonnegative integer. -/
def natDigits (n : Nat) : List Char := natDigitsAux (n + 1) n

/-- Decimal string of `n`; models Python `str(n)`. -/
def strNat (n : Nat) : String := String.mk (natDigits n)

/-- Value of a most-significant-first digit list (used to prove `natDigits`
is injective). -/
def digitsVal (l : List Char) : Nat :=
  l.foldl (fun a c => 10 * a + (c.toNat - 48)) 0

/-! ### List-level string primitives (model Python `str` operations) -/

/-- Does the list start with the given needle? Models Python `startswith`. -/
def listStartsWith : List Char → List Char → Bool
  | _, [] => true
  | [], _ :: _ => false
  | a :: as, b :: bs => a == b && listStartsWith as bs

/-- Does the haystack contain the needle as a contiguous run? Models the
Python `in` operator on strings. -/
def listContains : List Char → List Char → Bool
  | [], needle => listStartsWith [] needle
  | a :: t, needle => listStartsWith (a :: t) needle || listContains t needle

/-- Python `needle in hay` on strings. -/
def pyIn (needle hay : String) : Bool := listContains hay.data needle.data

/-- Python `s.startswith(t)`. -/
def pyStartsWith (s t : String) : Bool := listStartsWith s.data t.data

/-- Python `s.endswith(t)`. -/
def pyEndsWith (s t : String) : Bool :=
  listStartsWith s.data.reverse t.data.reverse

/-- ASCII lowercasing of one character. Models Python `str.lower` on the
ASCII range (the only range exercised by this program). -/
def asciiLower (c : Char) : Char :=
  if 'A' ≤ c ∧ c ≤ 'Z' then Char.ofNat (c.toNat + 32) else c

/-- Python `s.lower()`, modelled on the ASCII range. -/
def pyLower (s : String) : String := String.mk (s.data.map asciiLower)

/-- Python `str.isspace` on one character: ASCII whitespace plus the
next-line and no-break-space characters (the Unicode space characters
above U+00A0 are not modelled; none can reach this predicate here). -/
def pyIsSpace (c : Char) : Bool :=
  c == ' ' || c == '\t' || c == '\n' || c == '\r' ||
  c == Char.ofNat 11 || c == Char.ofNat 12 ||
  c == Char.ofNat 0x1c || c == Char.ofNat 0x1d || c == Char.ofNat 0x1e ||
  c == Char.ofNat 0x1f || c == Char.ofNat 0x85 || c == Char.ofNat 0xa0

/-- Python `s.strip()` with no argument: remove leading and trailing
whitespace. -/
def pyStrip (s : String) : String :=
  String.mk (((s.data.dropWhile pyIsSpace).reverse.dropWhile pyIsSpace).reverse)

/-- Python `s.rstrip()` with no argument: remove trailing whitespace. -/
def pyRstrip (s : String) : String :=
  String.mk ((s.data.reverse.dropWhile pyIsSpace).reverse)

/-- Python `s.strip(chars)`: remove leading and trailing characters drawn
from the given set. -/
def pyStripChars (cs : List Char) (s : String) : String :=
  String.mk (((s.data.dropWhile (· ∈ cs)).reverse.dropWhile (· ∈ cs)).reverse)

/-- Python `str.isalnum` on one character. Faithful on code points up to
U+00FF (ASCII alphanumerics, the Latin-1 letters, micro sign, ordinal
indicators, superscripts and vulgar fractions); code points above U+00FF
are not modelled and are treated as non-alphanumeric. -/
def pyIsAlnum (c : Char) : Bool :=
  c.isAlphanum ||
  (0xc0 ≤ c.toNat && c.toNat ≤ 0xff && c.toNat != 0xd7 && c.toNat != 0xf7) ||
  c.toNat == 0xaa || c.toNat == 0xb2 || c.toNat == 0xb3 || c.toNat == 0xb5 ||
  c.toNat == 0xb9 || c.toNat == 0xba || c.toNat == 0xbc || c.toNat == 0xbd ||
  c.toNat == 0xbe

/-- The character filter of src/lib.py line 86: keep a character when it is
alphanumeric or one of space, hyphen, underscore, period. -/
def keepChar (c : Char) : Bool :=
  pyIsAlnum c || c == ' ' || c == '-' || c == '_' || c == '.'

/-- Line 86 of src/lib.py:
`"".join(c for c in filename if c.isalnum() or c in (' ', '-', '_', '.')).rstrip()`. -/
def sanitize (s : String) : String :=
  pyRstrip (String.mk (s.data.filter keepChar))

/-- Python `s.split(sep)` for a one-character separator, on char lists.
`"a.b".split "." = ["a", "b"]`, `"".split "." = [""]`. -/
def pySplitChar (sep : Char) : List Char → List (List Char)
  | [] => [[]]
  | c :: t =>
    if c == sep then [] :: pySplitChar sep t
    else
      match pySplitChar sep t with
      | [] => [[c]]
      | h :: r => (c :: h) :: r

/-- Python `s.split(sep)[0]` for a one-character separator. -/
def pySplitFirst (sep : Char) (s : String) : String :=
  String.mk ((pySplitChar sep s.data).headD [])

/-- Python `s.split(sep)[-1]` for a one-character separator. -/
def pySplitLast (sep : Char) (s : String) : String :=
  String.mk ((pySplitChar sep s.data).getLastD [])

/-- The suffix of `s` after the last occurrence of `sep`, or `none` when
`sep` does not occur. For a separator with no nonempty border (such as
`"filename="`), this equals Python `s.split(sep)[-1]`. -/
def afterLastAux (sep : List Char) : List Char → Option (List Char)
  | [] => if sep.isEmpty then some [] else none
  | c :: t =>
    match afterLastAux sep t with
    | some r => some r
    | none =>
      if listStartsWith (c :: t) sep then some (List.drop sep.length (c :: t))
      else none

/-- Python `s.split(sep)[-1]` for a borderless multi-character separator:
the part of `s` after the last occurrence of `sep` (all of `s` when `sep`
does not occur). -/
def afterLast (sep s : String) : String :=
  String.mk ((afterLastAux sep.data s.data).getD s.data)

/-! ### Percent decoding (models `urllib.parse.unquote`) -/

/-- Hex digit value, or `none`. -/
def hexVal (c : Char) : Option Nat :=
  if '0' ≤ c ∧ c ≤ '9' then some (c.toNat - 48)
  else if 'a' ≤ c ∧ c ≤ 'f' then some (c.toNat - 87)
  else if 'A' ≤ c ∧ c ≤ 'F' then some (c.toNat - 55)
  else none

/-- UTF-8 encoding of a single scalar value, as a list of byte values. -/
def utf8Bytes (c : Char) : List Nat :=
  let n := c.toNat
  if n < 0x80 then [n]
  else if n < 0x800 then [0xc0 + n / 64, 0x80 + n % 64]
  else if n < 0x10000 then [0xe0 + n / 4096, 0x80 + n / 64 % 64, 0x80 + n % 64]
  else [0xf0 + n / 262144, 0x80 + n / 4096 % 64, 0x80 + n / 64 % 64, 0x80 + n % 64]

/-- Byte stream of a percent-encoded string: each `%XX` with two hex digits
contributes the byte `XX`; every other character contributes its own UTF-8
bytes (a stray `%` is kept literally, as Python unquote does). -/
def pctBytes : List Char → List Nat
  | [] => []
  | '%' :: a :: b :: t =>
    match hexVal a, hexVal b with
    | some x, some y => (16 * x + y) :: pctBytes t
    | _, _ => utf8Bytes '%' ++ pctBytes (a :: b :: t)
  | c :: t => utf8Bytes c ++ pctBytes t

/-- Is the byte a UTF-8 continuation byte? -/
def isCont (b : Nat) : Bool := 0x80 ≤ b && b ≤ 0xbf

/-- UTF-8 decoding with U+FFFD replacement of maximal invalid subparts,
matching the CPython decoder used by `unquote` (errors equal `replace`).
The fuel argument makes the recursion structural; every step consumes at
least one byte, so fuel equal to the byte count suffices. -/
def utf8DecodeAux : Nat → List Nat → List Char
  | 0, _ => []
  | _, [] => []
  | fuel + 1, b :: t =>
    if b < 0x80 then Char.ofNat b :: utf8DecodeAux fuel t
    else if 0xc2 ≤ b ∧ b ≤ 0xdf then
      match t with
      | b2 :: t2 =>
        if isCont b2 then
          Char.ofNat ((b - 0xc0) * 64 + (b2 - 0x80)) :: utf8DecodeAux fuel t2
        else Char.ofNat 0xfffd :: utf8DecodeAux fuel (b2 :: t2)
      | [] => [Char.ofNat 0xfffd]
    else if 0xe0 ≤ b ∧ b ≤ 0xef then
      match t with
      | b2 :: t2 =>
        if (b == 0xe0 && 0xa0 ≤ b2 && b2 ≤ 0xbf) ||
           (b == 0xed && 0x80 ≤ b2 && b2 ≤ 0x9f) ||
           (b != 0xe0 && b != 0xed && isCont b2) then
          match t2 with
          | b3 :: t3 =>
            if isCont b3 then
              Char.ofNat ((b - 0xe0) * 4096 + (b2 - 0x80) * 64 + (b3 - 0x80)) ::
                utf8DecodeAux fuel t3
            else Char.ofNat 0xfffd :: utf8DecodeAux fuel (b3 :: t3)
          | [] => [Char.ofNat 0xfffd]
        else Char.ofNat 0xfffd :: utf8DecodeAux fuel (b2 :: t2)
      | [] => [Char.ofNat 0xfffd]
    else if 0xf0 ≤ b ∧ b ≤ 0xf4 then
      match t with
      | b2 :: t2 =>
        if (b == 0xf0 && 0x90 ≤ b2 && b2 ≤ 0xbf) ||
           (b == 0xf4 && 0x80 ≤ b2 && b2 ≤ 0x8f) ||
           (b != 0xf0 && b != 0xf4 && isCont b2) then
          match t2 with
          | b3 :: t3 =>
            if isCont b3 then
              match t3 with
              | b4 :: t4 =>
                if isCont b4 then
                  Char.ofNat ((b - 0xf0) * 262144 + (b2 - 0x80) * 4096 +
                    (b3 - 0x80) * 64 + (b4 - 0x80)) :: utf8DecodeAux fuel t4
                else Char.ofNat 0xfffd :: utf8DecodeAux fuel (b4 :: t4)
              | [] => [Char.ofNat 0xfffd]
            else Char.ofNat 0xfffd :: utf8DecodeAux fuel (b3 :: t3)
          | [] => [Char.ofNat 0xfffd]
        else Char.ofNat 0xfffd :: utf8DecodeAux fuel (b2 :: t2)
      | [] => [Char.ofNat 0xfffd]
    else Char.ofNat 0xfffd :: utf8DecodeAux fuel t

/-- UTF-8 decode of a byte list. -/
def utf8Decode (l : List Nat) : List Char := utf8DecodeAux l.length l

/-- Python `urllib.parse.unquote(s)`: decode percent-encoded byte runs as
UTF-8 with replacement. -/
def pyUnquote (s : String) : String :=
  String.mk (utf8Decode (pctBytes s.data))

/-! ### URL splitting (models `urllib.parse.urlparse` / `urlsplit`) -/

/-- Characters permitted inside a URL scheme. -/
def schemeChar (c : Char) : Bool :=
  c.isAlpha || c.isDigit || c == '+' || c == '-' || c == '.'

/-- Splits a leading `scheme:` off the URL when present (first colon at a
positive index, first character an ASCII letter, all preceding characters
scheme characters), lowercasing the scheme, exactly as `urlsplit` does. -/
def splitScheme (url : String) : String × String :=
  match url.data.findIdx? (· == ':') with
  | none => ("", url)
  | some i =>
    if 0 < i ∧ (url.data.headD ' ').isAlpha ∧ (url.data.take i).all schemeChar then
      (pyLower (String.mk (url.data.take i)), String.mk (url.data.drop (i + 1)))
    else ("", url)

/-- Do the brackets of a netloc mismatch? `urlsplit` raises
`ValueError("Invalid IPv6 URL")` exactly in this case. -/
def bracketMismatch (netloc : List Char) : Bool :=
  (('[' ∈ netloc) && !(']' ∈ netloc)) || ((']' ∈ netloc) && !('[' ∈ netloc))

/-- Outcome of a call into `urllib.parse`: a returned value, a raised
`ValueError` with its message, or an input outside the modelled fragment
of the Unicode tables (nothing is asserted about the program there). -/
inductive UrlResult (α : Type) where
  | ok (a : α)
  | raises (msg : String)
  | unmodelled
deriving DecidableEq

/-- Functorial action on the `ok` branch. -/
def UrlResult.map (f : α → β) : UrlResult α → UrlResult β
  | .ok a => .ok (f a)
  | .raises m => .raises m
  | .unmodelled => .unmodelled

/-- Characters whose NFKC normalization contains one of the delimiters
`/?#@:` that `_checknetloc` scans for, from the compatibility
decompositions of the Unicode character database: the double question and
question-exclamation marks, the letterlike a/c, a/s, c/o, c/u symbols,
double colon equal, and the vertical, small and fullwidth presentation
forms of the five delimiters. -/
def nfkcDelimiterExpanding (c : Char) : Bool :=
  c.toNat ∈ [0x2047, 0x2048, 0x2049, 0x2100, 0x2101, 0x2105, 0x2106,
             0x2a74, 0xfe13, 0xfe16, 0xfe55, 0xfe56, 0xfe5f, 0xfe6b,
             0xff03, 0xff0f, 0xff1a, 0xff1f, 0xff20]

/-- Model of `urllib.parse._checknetloc`: an empty or all-ASCII netloc is
returned without any NFKC inspection (the first test of the function); a
non-ASCII netloc holding a character whose NFKC normalization introduces
one of `/?#@:` raises the `ValueError` with the exact CPython message;
any other non-ASCII netloc is outside the modelled table fragment and is
reported as unmodelled rather than accepted. -/
def checknetloc (netloc : String) : UrlResult Unit :=
  if netloc.data.all (fun c => c.toNat < 0x80) then .ok ()
  else if netloc.data.any nfkcDelimiterExpanding then
    .raises ("netloc \x27" ++ netloc ++
      "\x27 contains invalid characters under NFKC normalization")
  else .unmodelled

/-- Model of `urllib.parse.urlsplit(url)` restricted to the fields this
program reads, returning `(scheme, netloc, path)`. Following the CPython
source: tab, carriage-return and line-feed characters are removed from
the URL first; after the optional `scheme:` and `//netloc` parts the
fragment (after the first `#`) and the query (after the first `?`) are
cut off; a netloc with a mismatched square bracket raises
`ValueError("Invalid IPv6 URL")`, a netloc with a bracket pair undergoes
the version-dependent bracketed-host validation (not modelled: reported
as unmodelled), and the netloc then passes `_checknetloc`. -/
def urlsplitE (url0 : String) : UrlResult (String × String × String) :=
  let url := String.mk (url0.data.filter (fun c => c ≠ '\t' ∧ c ≠ '\r' ∧ c ≠ '\n'))
  let (scheme, rest) := splitScheme url
  if listStartsWith rest.data ['/', '/'] then
    let netloc := (rest.data.drop 2).takeWhile (fun c => c ≠ '/' ∧ c ≠ '?' ∧ c ≠ '#')
    let tail := (rest.data.drop 2).dropWhile (fun c => c ≠ '/' ∧ c ≠ '?' ∧ c ≠ '#')
    if bracketMismatch netloc then .raises "Invalid IPv6 URL"
    else if '[' ∈ netloc ∧ ']' ∈ netloc then .unmodelled
    else
      match checknetloc (String.mk netloc) with
      | .ok _ => .ok (scheme, String.mk netloc,
          String.mk (tail.takeWhile (fun c => c ≠ '#' ∧ c ≠ '?')))
      | .raises m => .raises m
      | .unmodelled => .unmodelled
  else .ok (scheme, "", String.mk (rest.data.takeWhile (fun c => c ≠ '#' ∧ c ≠ '?')))

/-- The parameter split `_splitparams` applies: the path is cut at the
first `;` within its last segment. -/
def splitparamsPath (p : String) : String :=
  if '/' ∈ p.data then
    let revSeg := p.data.reverse.takeWhile (· ≠ '/')
    String.mk ((p.data.reverse.drop revSeg.length).reverse ++
      revSeg.reverse.takeWhile (· ≠ ';'))
  else String.mk (p.data.takeWhile (· ≠ ';'))

/-- The schemes for which `urlparse` performs the parameter split, the
`uses_params` list of `urllib.parse`. -/
def uses_params : List String :=
  ["", "ftp", "hdl", "prospero", "http", "imap", "https", "shttp",
   "rtsp", "rtspu", "sip", "sips", "mms", "sftp", "tel"]

/-- The `.path` attribute of `urlparse(url)`: the split path, with the
parameter cut applied only when the (lowercased) scheme is in
`uses_params` and the path contains a `;`, exactly as `urlparse` guards
it. -/
def urlparsePathE (url : String) : UrlResult String :=
  (urlsplitE url).map fun r =>
    if r.1 ∈ uses_params ∧ ';' ∈ r.2.2.data then splitparamsPath r.2.2 else r.2.2

/-! ### Local time and generated names -/

/-- A local clock reading, as `datetime.now()` supplies it. Valid Python
datetimes satisfy `1 ≤ year ≤ 9999`, `1 ≤ month ≤ 12`, `1 ≤ day ≤ 31`,
`hour < 24`, `minute < 60`, `second < 60`. -/
structure DateTime where
  year : Nat
  month : Nat
  day : Nat
  hour : Nat
  minute : Nat
  second : Nat
deriving DecidableEq

/-- Zero-padded decimal rendering to at least `w` digits (the behaviour of
the `strftime` numeric directives on every valid datetime field). -/
def padDigits (w n : Nat) : List Char :=
  List.replicate (w - (natDigits n).length) '0' ++ natDigits n

/-- The string `now.strftime("%Y%m%d_%H%M%S")`. -/
def timestamp (t : DateTime) : String :=
  String.mk (padDigits 4 t.year ++ padDigits 2 t.month ++ padDigits 2 t.day ++
    ['_'] ++ padDigits 2 t.hour ++ padDigits 2 t.minute ++ padDigits 2 t.second)

/-- A fixed clock reading used for concrete evaluations. -/
def t0 : DateTime := ⟨2026, 1, 2, 3, 4, 5⟩

/-! ### Filename extraction (src/lib.py lines 24 to 38) -/

/-- Lines 24 to 38 of src/lib.py: take the last slash-separated segment of
the URL-decoded path when it contains a dot, otherwise generate
`image_<timestamp>.jpg`. Propagates the `ValueError` raised by `urlparse`
(mismatched brackets, or a netloc rejected under NFKC normalization). -/
def extract_filenameE (url : String) (now : DateTime) : UrlResult String :=
  (urlparsePathE url).map fun path0 =>
    let path := pyUnquote path0
    if path ≠ "" ∧ '/' ∈ path.data then
      let filename := pySplitLast '/' path
      if filename ≠ "" ∧ '.' ∈ filename.data then filename
      else "image_" ++ timestamp now ++ ".jpg"
    else "image_" ++ timestamp now ++ ".jpg"

/-! ### Extension inference and the filename pipeline (lines 69 to 88) -/

/-- Model of `mimetypes.guess_extension` from the Python standard library,
restricted to the image content types this development exercises; the
argument is lowercased first, as `guess_all_extensions` does. Content
types outside the table are mapped to `none` (for `image/jpeg` and the
rarer types the stdlib value varies across versions, and no claim depends
on them). -/
def guess_extension (t : String) : Option String :=
  let t := pyLower t
  if t = "image/png" then some ".png"
  else if t = "image/gif" then some ".gif"
  else if t = "image/webp" then some ".webp"
  else if t = "image/bmp" then some ".bmp"
  else none

/-- Python `content_type.split(";")[0]` and the like: the part before the
first occurrence of the character. -/
def beforeFirstChar (sep : Char) (s : String) : String :=
  pySplitFirst sep s

/-- Lines 70 to 83 of src/lib.py: the filename candidate before
sanitization. When the content-disposition header contains `filename=`,
take what follows its last occurrence and strip surrounding quote
characters; otherwise derive from the URL and possibly adjust the
extension from the content type. -/
def rawCandidateE (url cd ct : String) (now : DateTime) : UrlResult String :=
  if pyIn "filename=" cd then
    UrlResult.ok (pyStripChars ['"', Char.ofNat 39] (afterLast "filename=" cd))
  else
    (extract_filenameE url now).map fun filename =>
      match guess_extension (beforeFirstChar ';' ct) with
      | some ext =>
        if pyEndsWith filename ext then filename
        else if '.' ∈ filename.data then pySplitFirst '.' filename ++ ext
        else filename ++ ext
      | none => filename

/-- Lines 86 to 88 of src/lib.py: sanitize the candidate and replace an
empty result with a generated timestamp name (no extension). -/
def safeName (raw : String) (now : DateTime) : String :=
  let s := sanitize raw
  if s = "" then "image_" ++ timestamp now else s

/-- The filename the resolver settles on (lines 69 to 88), before the
directory join and collision loop. -/
def resolve_filenameE (url cd ct : String) (now : DateTime) : UrlResult String :=
  (rawCandidateE url cd ct now).map (fun raw => safeName raw now)

/-! ### Paths, `splitext` and the collision loop (lines 91 to 98) -/

/-- The index of the last occurrence of `c` in the list, if any. -/
def lastIndexOf (c : Char) : List Char → Option Nat
  | [] => none
  | a :: t =>
    match lastIndexOf c t with
    | some i => some (i + 1)
    | none => if a == c then some 0 else none

/-- `os.path.splitext` for POSIX paths: split at the last dot, provided it
lies after the last slash and at least one non-dot character stands
between them (so leading dots of a hidden file do not start an
extension). -/
def splitext (p : String) : String × String :=
  let l := p.data
  match lastIndexOf '.' l with
  | none => (p, "")
  | some di =>
    let start :=
      match lastIndexOf '/' l with
      | some si => si + 1
      | none => 0
    if start ≤ di ∧ ((l.drop start).take (di - start)).any (fun c => c ≠ '.') then
      (String.mk (l.take di), String.mk (l.drop di))
    else (p, "")

/-- `os.path.join` for POSIX paths, two arguments. -/
def posixJoin (a b : String) : String :=
  if pyStartsWith b "/" then b
  else if a = "" ∨ pyEndsWith a "/" then a ++ b
  else a ++ "/" ++ b

/-- The n-th candidate path the collision loop of lines 93 to 98 tries:
the original path for `n = 0`, and `base_name ++ "_" ++ str n ++ extension`
for `n ≥ 1`, with `base_name` and `extension` split off the original path
once before the loop. -/
def collisionCand (savePath : String) : Nat → String
  | 0 => savePath
  | n + 1 => (splitext savePath).1 ++ "_" ++ strNat (n + 1) ++ (splitext savePath).2

/-- The while loop of lines 96 to 98, fuelled: starting at candidate `n`,
return the first candidate that is not an existing file; `fuel` bounds the
number of existence checks (the exhaustion branch returns the next
unchecked candidate, and the C1 theorem shows fuel
`existing.length + 1` makes this equal to the unbounded source loop). -/
def resolveAux (existing : List String) (cand : Nat → String) : Nat → Nat → String
  | 0, n => cand n
  | fuel + 1, n => if cand n ∈ existing then resolveAux existing cand fuel (n + 1) else cand n

/-- Lines 93 to 98 of src/lib.py: resolve the save path against the files
already on disk (modelled as the list `existing`). -/
def resolve_save_path (existing : List String) (savePath : String) : String :=
  resolveAux existing (collisionCand savePath) (existing.length + 1) 0

/-! ### Exceptions and the fetch boundary (lines 45 to 125) -/

/-- The exceptions the try block of `download_image` can observe.
Each carries the string Python would render for it. `connectionError`,
`httpError`, `timeout` and `tooManyRedirects` are the
`requests.exceptions` classes, all of them subclasses of
`RequestException`; `ioError` is `OSError`; `otherError` stands for any
remaining exception (for example the `ValueError` out of `urlparse`). -/
inductive PyExc where
  | connectionError (msg : String)
  | httpError (msg : String)
  | timeout (msg : String)
  | tooManyRedirects (msg : String)
  | ioError (msg : String)
  | otherError (msg : String)
deriving DecidableEq

/-- The string interpolated for the exception. -/
def excMessage : PyExc → String
  | .connectionError m | .httpError m | .timeout m
  | .tooManyRedirects m | .ioError m | .otherError m => m

/-- Python subclass test against `requests.exceptions.RequestException`:
`ConnectionError`, `HTTPError`, `Timeout` and `TooManyRedirects` all
derive from it. -/
def isRequestException : PyExc → Bool
  | .connectionError _ | .httpError _ | .timeout _ | .tooManyRedirects _ => true
  | _ => false

/-- Subclass test against `requests.exceptions.HTTPError`. -/
def isHTTPError : PyExc → Bool
  | .httpError _ => true
  | _ => false

/-- Subclass test against `requests.exceptions.Timeout`. -/
def isTimeoutError : PyExc → Bool
  | .timeout _ => true
  | _ => false

/-- Subclass test against `requests.exceptions.TooManyRedirects`. -/
def isTooManyRedirects : PyExc → Bool
  | .tooManyRedirects _ => true
  | _ => false

/-- Subclass test against `OSError` (`IOError` is an alias for it). -/
def isIOError : PyExc → Bool
  | .ioError _ => true
  | _ => false

/-- Lines 112 to 123 of src/lib.py: the except clauses, applied in source
order with Python subclass matching (the first clause whose class the
exception is an instance of handles it). Returns the message printed. -/
def exceptChain (e : PyExc) : String :=
  if isRequestException e then "❌ Network error: " ++ excMessage e
  else if isHTTPError e then "❌ HTTP error: " ++ excMessage e
  else if isTimeoutError e then "❌ Request timed out"
  else if isTooManyRedirects e then "❌ Too many redirects"
  else if isIOError e then "❌ File system error: " ++ excMessage e
  else "❌ Unexpected error: " ++ excMessage e

/-- The response headers `download_image` reads, after
`raise_for_status` has passed (a non-2xx status surfaces as an
`httpError` instead). -/
structure Response where
  contentType : String
  contentDisposition : String
deriving DecidableEq

/-- Outcome of `requests.get` plus `raise_for_status`: either a response,
or the exception raised anywhere in the try block. -/
inductive FetchResult where
  | exc (e : PyExc)
  | ok (resp : Response)
deriving DecidableEq

/-- The warning printed for a non-image content type (line 62). -/
def warnMsg : String :=
  "⚠️  Warning: The URL doesn\x27t seem to point to an image file"

/-- The cancellation report (line 66). -/
def cancelMsg : String := "Download cancelled."

/-- The connection status line (line 53). -/
def connectMsg (netloc : String) : String := "🌐 Connecting to " ++ netloc ++ "..."

/-- Model of `download_image(url, save_directory)` (lines 45 to 125).
Inputs beyond the two source arguments stand for the ambient state the
function reads: the fetch outcome, the interactive confirmation answer,
the files already on disk, and the current local time. The result is the
returned boolean together with the messages printed, in order (the byte
size interpolated into the success message is elided, and an exception is
modelled as arising at the request itself). A `ValueError` out of
`urlparse` is caught by the generic except clause; at URLs outside the
modelled Unicode fragment the result is arbitrary and no theorem
constrains it. -/
def download_image (url : String) (fr : FetchResult) (answer : String)
    (existing : List String) (now : DateTime) (saveDir : String) :
    Bool × List String :=
  match urlsplitE url with
  | .raises m => (false, [exceptChain (.otherError m)])
  | .unmodelled => (false, [])
  | .ok (_, netloc, _) =>
    match fr with
    | .exc e => (false, [connectMsg netloc, exceptChain e])
    | .ok resp =>
      let warned := pyStartsWith resp.contentType "image/" = false
      if warned ∧ pyLower answer ≠ "y" then
        (false, [connectMsg netloc, warnMsg, cancelMsg])
      else
        match resolve_filenameE url resp.contentDisposition resp.contentType now with
        | .raises m =>
          (false, [connectMsg netloc] ++ (if warned then [warnMsg] else []) ++
            [exceptChain (.otherError m)])
        | .unmodelled => (false, [])
        | .ok filename =>
          let savePath := resolve_save_path existing (posixJoin saveDir filename)
          (true, [connectMsg netloc] ++ (if warned then [warnMsg] else []) ++
            ["📥 Downloading: " ++ filename,
             "✅ Successfully saved: " ++ filename,
             "📁 Location: " ++ savePath])

/-! ### The interactive loop (lines 127 to 169) -/

/-- What one loop iteration does with the line read from the prompt. -/
inductive StepAction where
  | terminate (msg : String)
  | warn (msg : String)
  | fetch (url : String)
deriving DecidableEq

/-- Lines 147 to 163 of src/lib.py: strip the line, recognize the quit
commands case-insensitively, reject empty input and input without an
http or https scheme with a warning, and otherwise hand the URL to the
fetcher. -/
def main_step (line : String) : StepAction :=
  let url := pyStrip line
  if pyLower url ∈ ["quit", "exit", "q"] then
    .terminate "👋 Thank you for using Image Fetcher!"
  else if url = "" then .warn "⚠️  Please enter a valid URL"
  else if ¬(pyStartsWith url "http://" = true ∨ pyStartsWith url "https://" = true) then
    .warn "⚠️  URL must start with http:// or https://"
  else .fetch url

/-- Observable side effects of a `main` run. -/
inductive Event where
  | dirCreate (name : String)
  | printed (msg : String)
  | netFetch (url : String)
deriving DecidableEq

/-- The read-eval loop of `main`, consuming the given input lines in
order (the run stops when the lines are exhausted). -/
def main_loop : List String → List Event
  | [] => []
  | line :: rest =>
    match main_step line with
    | .terminate m => [.printed m]
    | .warn m => .printed m :: main_loop rest
    | .fetch u => .netFetch u :: main_loop rest

/-- Lines 127 to 169 of src/lib.py: create the destination directory (its
success is the `dirOk` input) and run the loop; a failed creation aborts
before any prompt. -/
def main_run (dirOk : Bool) (inputs : List String) : List Event :=
  if dirOk then Event.dirCreate "Fetched_Images" :: main_loop inputs
  else [Event.dirCreate "Fetched_Images"]

/-! ### Definitions written from the words of the claims (for comparison) -/

/-- The character set the C3 claim names: `[A-Za-z0-9 ._-]`
(`Char.isAlphanum` is exactly ASCII alphanumeric). -/
def specAsciiSafe (c : Char) : Bool :=
  c.isAlphanum || c == ' ' || c == '.' || c == '_' || c == '-'

/-- Modelled from the words of claim C5: the candidate with its extension
(in the `splitext` sense) replaced by the inferred one. -/
def specExtensionReplaced (f e : String) : String := (splitext f).1 ++ e

/-! ## Theorems -/

/-! ### Generic string and digit lemmas -/

theorem data_mk (l : List Char) : (String.mk l).data = l := rfl

theorem string_eq_of_data {a b : String} (h : a.data = b.data) : a = b := by
  cases a; cases b; exact congrArg String.mk h

theorem append_ne_of_ne_head {pre m b : String} {c1 c2 : Char} {t1 t2 : List Char}
    (hpre : pre.data = c1 :: t1) (hb : b.data = c2 :: t2) (hne : c1 ≠ c2) :
    pre ++ m ≠ b := by
  intro h
  have h2 := congrArg String.data h
  rw [String.data_append, hpre, hb] at h2
  simp only [List.cons_append, List.cons.injEq] at h2
  exact hne h2.1

theorem decChar_val {d : Nat} (h : d < 10) : (decChar d).toNat = 48 + d := by
  interval_cases d <;> decide

theorem decChar_isDigit {d : Nat} (h : d < 10) : (decChar d).isDigit = true := by
  interval_cases d <;> decide

theorem digitsVal_append_one (A : List Char) (c : Char) :
    digitsVal (A ++ [c]) = 10 * digitsVal A + (c.toNat - 48) := by
  simp [digitsVal, List.foldl_append]

theorem digitsVal_natDigitsAux :
    ∀ fuel n, n < fuel → digitsVal (natDigitsAux fuel n) = n := by
  intro fuel
  induction fuel with
  | zero => intro n h; omega
  | succ fuel ih =>
    intro n h
    by_cases h10 : n < 10
    · simp [natDigitsAux, h10, digitsVal, decChar_val h10]
    · have hlt : n / 10 < n := Nat.div_lt_self (by omega) (by omega)
      have hfuel : n / 10 < fuel := by omega
      have hmod : n % 10 < 10 := Nat.mod_lt n (by omega)
      simp only [natDigitsAux, if_neg h10]
      rw [digitsVal_append_one, ih (n / 10) hfuel, decChar_val hmod]
      omega

theorem natDigits_inj {m n : Nat} (h : natDigits m = natDigits n) : m = n := by
  have hm := digitsVal_natDigitsAux (m + 1) m (by omega)
  have hn := digitsVal_natDigitsAux (n + 1) n (by omega)
  rw [natDigits, natDigits] at h
  rw [← hm, ← hn, h]

theorem natDigitsAux_length :
    ∀ fuel n w, n < fuel → n < 10 ^ (w + 1) → (natDigitsAux fuel n).length ≤ w + 1 := by
  intro fuel
  induction fuel with
  | zero => intro n w h; omega
  | succ fuel ih =>
    intro n w h hw
    by_cases h10 : n < 10
    · simp [natDigitsAux, h10]
    · have hlt : n / 10 < n := Nat.div_lt_self (by omega) (by omega)
      cases w with
      | zero => simp at hw; omega
      | succ w =>
        have hdiv : n / 10 < 10 ^ (w + 1) := by
          rw [Nat.div_lt_iff_lt_mul (by omega)]
          calc n < 10 ^ (w + 1 + 1) := hw
          _ = 10 ^ (w + 1) * 10 := by ring
        have := ih (n / 10) w (by omega) hdiv
        simp only [natDigitsAux, if_neg h10, List.length_append, List.length_cons,
          List.length_nil]
        omega

theorem natDigitsAux_digits :
    ∀ fuel n c, c ∈ natDigitsAux fuel n → c.isDigit = true := by
  intro fuel
  induction fuel with
  | zero => intro n c h; simp [natDigitsAux] at h
  | succ fuel ih =>
    intro n c h
    by_cases h10 : n < 10
    · simp [natDigitsAux, h10] at h
      exact h ▸ decChar_isDigit h10
    · simp only [natDigitsAux, if_neg h10, List.mem_append, List.mem_singleton] at h
      rcases h with h | h
      · exact ih (n / 10) c h
      · exact h ▸ decChar_isDigit (Nat.mod_lt n (by omega))

theorem padDigits_length {n : Nat} (w : Nat) (h : n < 10 ^ (w + 1)) :
    (padDigits (w + 1) n).length = w + 1 := by
  have := natDigitsAux_length (n + 1) n w (by omega) h
  simp only [padDigits, natDigits, List.length_append, List.length_replicate]
  omega

theorem padDigits_digits {w n : Nat} {c : Char} (h : c ∈ padDigits w n) :
    c.isDigit = true := by
  simp only [padDigits, List.mem_append] at h
  rcases h with h | h
  · rw [List.eq_of_mem_replicate h]; decide
  · exact natDigitsAux_digits (n + 1) n c h

/-! ### The collision loop (claim C1) -/

theorem strNat_data (n : Nat) : (strNat n).data = natDigits n := rfl

theorem collisionCand_inj (sp : String) {m n : Nat}
    (h : collisionCand sp (m + 1) = collisionCand sp (n + 1)) : m = n := by
  have h2 := congrArg String.data h
  simp only [collisionCand, String.data_append, List.append_assoc] at h2
  have h3 := List.append_cancel_left (List.append_cancel_left h2)
  have h4 := List.append_cancel_right h3
  have h5 : natDigits (m + 1) = natDigits (n + 1) := h4
  have := natDigits_inj h5
  omega

theorem exists_fresh (L : List String) (f : Nat → String)
    (hf : ∀ m n, f m = f n → m = n) :
    ∃ k, k < L.length + 1 ∧ f k ∉ L := by
  by_contra hc
  push_neg at hc
  have hsub : (Finset.range (L.length + 1)).image f ⊆ L.toFinset := by
    intro x hx
    simp only [Finset.mem_image, Finset.mem_range] at hx
    obtain ⟨k, hk, rfl⟩ := hx
    exact List.mem_toFinset.mpr (hc k hk)
  have hcard : ((Finset.range (L.length + 1)).image f).card = L.length + 1 := by
    rw [Finset.card_image_of_injective _ (fun a b hab => hf a b hab), Finset.card_range]
  have h1 := Finset.card_le_card hsub
  have h2 := List.toFinset_card_le L
  omega

theorem resolveAux_spec (existing : List String) (cand : Nat → String) :
    ∀ fuel start, (∃ k, start ≤ k ∧ k ≤ start + fuel ∧ cand k ∉ existing) →
    ∃ j, start ≤ j ∧ resolveAux existing cand fuel start = cand j ∧
      cand j ∉ existing ∧ ∀ m, start ≤ m → m < j → cand m ∈ existing := by
  intro fuel
  induction fuel with
  | zero =>
    rintro start ⟨k, hk1, hk2, hk3⟩
    have he : k = start := by omega
    subst he
    exact ⟨k, Nat.le_refl _, rfl, hk3, fun m h1 h2 => absurd h2 (by omega)⟩
  | succ fuel ih =>
    rintro start ⟨k, hk1, hk2, hk3⟩
    by_cases hmem : cand start ∈ existing
    · have hk0 : k ≠ start := by
        intro he; rw [he] at hk3; exact hk3 hmem
      obtain ⟨j, hj1, hj2, hj3, hj4⟩ := ih (start + 1) ⟨k, by omega, by omega, hk3⟩
      refine ⟨j, by omega, ?_, hj3, ?_⟩
      · simpa [resolveAux, hmem] using hj2
      · intro m h1 h2
        rcases Nat.eq_or_lt_of_le h1 with he | hlt
        · exact he ▸ hmem
        · exact hj4 m (by omega) h2
    · exact ⟨start, Nat.le_refl _, by simp [resolveAux, hmem], hmem,
        fun m h1 h2 => absurd h2 (by omega)⟩

/-- C1: for every set of existing files and every candidate save path, the
collision loop returns a path that names no existing file, and that path
is the candidate `X` itself or the first fresh `X_n` (suffix inserted
before the `splitext` extension), every earlier candidate being taken —
so `X` taken yields `X_1`, `X` and `X_1` taken yield `X_2`, and so on —
and the search terminates for every finite set of existing files (the
resolver is a total function and `existing.length + 1` probes suffice). -/
theorem C1_collision_suffix (existing : List String) (savePath : String) :
    resolve_save_path existing savePath ∉ existing ∧
    ∃ n, resolve_save_path existing savePath = collisionCand savePath n ∧
      ∀ m, m < n → collisionCand savePath m ∈ existing := by
  obtain ⟨k0, hk0, hfresh⟩ := exists_fresh existing
    (fun k => collisionCand savePath (k + 1))
    (fun a b hab => collisionCand_inj savePath hab)
  obtain ⟨j, hj1, hj2, hj3, hj4⟩ := resolveAux_spec existing (collisionCand savePath)
    (existing.length + 1) 0 ⟨k0 + 1, by omega, by omega, hfresh⟩
  simp only [resolve_save_path]
  exact ⟨hj2 ▸ hj3, j, hj2, fun m hm => hj4 m (by omega) hm⟩

/-- Witness for C1, at a concrete two-element existing set. -/
theorem C1_witness :
    resolve_save_path ["Fetched_Images/a.png", "Fetched_Images/a_1.png"]
      "Fetched_Images/a.png" ∉
      ["Fetched_Images/a.png", "Fetched_Images/a_1.png"] ∧
    ∃ n, resolve_save_path ["Fetched_Images/a.png", "Fetched_Images/a_1.png"]
        "Fetched_Images/a.png" = collisionCand "Fetched_Images/a.png" n ∧
      ∀ m, m < n → collisionCand "Fetched_Images/a.png" m ∈
        ["Fetched_Images/a.png", "Fetched_Images/a_1.png"] :=
  C1_collision_suffix ["Fetched_Images/a.png", "Fetched_Images/a_1.png"]
    "Fetched_Images/a.png"

/-! ### Exception classification (claim C2) -/

/-- C2 (code bug evidence): the `except requests.exceptions.RequestException`
clause at line 112 precedes the `HTTPError`, `Timeout` and
`TooManyRedirects` clauses, and those classes are all subclasses of
`RequestException`, so an HTTP status failure, a timeout and a redirect
overflow are all reported with the network-error message instead of their
dedicated distinct messages — the handlers at lines 114 to 119 are
unreachable. The fetch does return the failure outcome in every case. -/
theorem C2_exception_classification :
    exceptChain (.timeout "read timed out") = "❌ Network error: read timed out" ∧
    exceptChain (.httpError "404 Client Error") = "❌ Network error: 404 Client Error" ∧
    exceptChain (.tooManyRedirects "Exceeded 30 redirects") =
      "❌ Network error: Exceeded 30 redirects" ∧
    exceptChain (.timeout "read timed out") ≠ "❌ Request timed out" ∧
    (∀ e, (download_image "https://example.com/a.png" (.exc e) "" [] t0
      "Fetched_Images").1 = false) :=
  ⟨rfl, rfl, rfl, by decide, fun e => rfl⟩

/-! ### Sanitization (claim C3) -/

theorem getLastD_reverse (l : List Char) (d : Char) : l.reverse.getLastD d = l.headD d := by
  cases l with
  | nil => rfl
  | cons a t => simp [List.getLastD_concat]

theorem headD_dropWhile_not (p : Char → Bool) (l : List Char) (d : Char)
    (hd : p d = false) : p ((l.dropWhile p).headD d) = false := by
  induction l with
  | nil => simpa [List.dropWhile]
  | cons a t ih =>
    by_cases hp : p a = true
    · simpa [List.dropWhile, hp] using ih
    · simp [List.dropWhile, hp]

/-- C3 (counterexample): Python `str.isalnum` is Unicode-aware, so the
sanitized name can keep characters outside `[A-Za-z0-9 ._-]`: the Latin
letter `é` passes the line-86 filter untouched. -/
theorem C3_counterexample :
    sanitize "é.png" = "é.png" ∧ (sanitize "é.png").data.all specAsciiSafe = false :=
  ⟨by decide, by decide⟩

/-- C3 (amended): every character of the sanitized result is alphanumeric
in the sense of Python `str.isalnum` or one of space, hyphen, underscore,
period, and the result has no trailing whitespace. -/
theorem C3_sanitize_amended (s : String) :
    (sanitize s).data.all keepChar = true ∧
    pyIsSpace ((sanitize s).data.getLastD 'x') = false := by
  constructor
  · rw [List.all_eq_true]
    intro c hc
    have hc2 : c ∈ (s.data.filter keepChar).reverse.dropWhile pyIsSpace := by
      simpa [sanitize, pyRstrip] using hc
    have hc3 : c ∈ (s.data.filter keepChar).reverse :=
      (List.dropWhile_sublist pyIsSpace).mem hc2
    exact List.of_mem_filter (List.mem_reverse.mp hc3)
  · show pyIsSpace
      ((((s.data.filter keepChar).reverse.dropWhile pyIsSpace).reverse).getLastD 'x') = false
    rw [getLastD_reverse]
    exact headD_dropWhile_not pyIsSpace _ 'x' (by decide)

/-! ### Cancellation versus failure (claim C4) -/

theorem exceptChain_ne_cancel (e : PyExc) : exceptChain e ≠ cancelMsg := by
  cases e with
  | connectionError m =>
    exact show "❌ Network error: " ++ m ≠ cancelMsg from
      append_ne_of_ne_head rfl rfl (by decide)
  | httpError m =>
    exact show "❌ Network error: " ++ m ≠ cancelMsg from
      append_ne_of_ne_head rfl rfl (by decide)
  | timeout m =>
    exact show "❌ Network error: " ++ m ≠ cancelMsg from
      append_ne_of_ne_head rfl rfl (by decide)
  | tooManyRedirects m =>
    exact show "❌ Network error: " ++ m ≠ cancelMsg from
      append_ne_of_ne_head rfl rfl (by decide)
  | ioError m =>
    exact show "❌ File system error: " ++ m ≠ cancelMsg from
      append_ne_of_ne_head rfl rfl (by decide)
  | otherError m =>
    exact show "❌ Unexpected error: " ++ m ≠ cancelMsg from
      append_ne_of_ne_head rfl rfl (by decide)

/-- C4 (counterexample): a declined confirmation returns the same outcome
value as an actual failure — `download_image` returns `False` both when
the user cancels on a non-image content type and when the request times
out, so the cancellation outcome is not distinct from the failure
outcome. -/
theorem C4_counterexample :
    (download_image "https://example.com/page" (.ok ⟨"text/html", ""⟩) "n"
      [] t0 "Fetched_Images").1 = false ∧
    (download_image "https://example.com/page" (.exc (.timeout "read timed out")) "n"
      [] t0 "Fetched_Images").1 = false ∧
    cancelMsg ∈ (download_image "https://example.com/page" (.ok ⟨"text/html", ""⟩) "n"
      [] t0 "Fetched_Images").2 :=
  ⟨rfl, rfl, by decide⟩

/-- C4 (amended): on a non-image content type with a non-affirmative
answer the download aborts, reporting the cancellation with a message
distinct from every failure-category message; the returned outcome,
however, is the same binary failure value (`False`) failures produce. -/
theorem C4_cancellation_amended (url answer : String) (resp : Response)
    (s nl p : String) (ex : List String) (now : DateTime) (dir : String)
    (hurl : urlsplitE url = UrlResult.ok (s, nl, p))
    (hct : pyStartsWith resp.contentType "image/" = false)
    (hans : pyLower answer ≠ "y") :
    download_image url (.ok resp) answer ex now dir =
      (false, [connectMsg nl, warnMsg, cancelMsg]) ∧
    ∀ e, exceptChain e ≠ cancelMsg := by
  constructor
  · simp only [download_image, hurl]
    rw [if_pos ⟨hct, hans⟩]
  · exact exceptChain_ne_cancel

/-- Witness for C4 (amended), at a concrete declined non-image download. -/
theorem C4_witness :
    download_image "https://example.com/page" (.ok ⟨"text/html", ""⟩) "no"
      [] t0 "Fetched_Images" =
      (false, [connectMsg "example.com", warnMsg, cancelMsg]) ∧
    ∀ e, exceptChain e ≠ cancelMsg :=
  C4_cancellation_amended "https://example.com/page" "no" ⟨"text/html", ""⟩
    "https" "example.com" "/page" [] t0 "Fetched_Images" rfl (by decide) (by decide)

/-! ### Extension rewriting (claim C5) -/

theorem pySplitChar_ne_nil (sep : Char) : ∀ l : List Char, pySplitChar sep l ≠ [] := by
  intro l
  cases l with
  | nil => simp [pySplitChar]
  | cons c t =>
    by_cases hc : c == sep
    · simp [pySplitChar, hc]
    · rcases hsplit : pySplitChar sep t with _ | ⟨h0, r⟩ <;>
        simp [pySplitChar, hc, hsplit]

theorem pySplitChar_head (sep : Char) :
    ∀ l : List Char, (pySplitChar sep l).headD [] = l.takeWhile (fun c => c ≠ sep) := by
  intro l
  induction l with
  | nil => rfl
  | cons c t ih =>
    by_cases hc : c = sep
    · subst hc
      simp [pySplitChar, List.takeWhile]
    · have hbeq : (c == sep) = false := by simpa using hc
      rcases hsplit : pySplitChar sep t with _ | ⟨h0, r⟩
      · exact absurd hsplit (pySplitChar_ne_nil sep t)
      · rw [hsplit] at ih
        simp only [pySplitChar, hbeq, Bool.false_eq_true, if_false, hsplit,
          List.headD_cons, List.takeWhile]
        simp only [List.headD_cons] at ih
        simp [hc, ih]

/-- C5 (counterexample): the code truncates the candidate at its first
dot, it does not replace the extension: for the URL path `my.photo.txt`
with content type `image/png` the resolved name is `my.png`, not the
extension-replaced `my.photo.png` the claim describes. -/
theorem C5_counterexample :
    resolve_filenameE "https://example.com/my.photo.txt" "" "image/png" t0 =
      UrlResult.ok "my.png" ∧
    specExtensionReplaced "my.photo.txt" ".png" = "my.photo.png" ∧
    ("my.png" : String) ≠ "my.photo.png" :=
  ⟨rfl, by decide, by decide⟩

/-- C5 (amended): when no content-disposition filename was supplied and
the content type implies an extension the candidate does not already end
with, the candidate is cut at its first dot and the inferred extension
appended (everything from the first dot on is discarded), or the
extension is appended when the candidate has no dot; in particular for
content type `image/png` and a URL ending in `photo.txt` the resolved
filename is `photo.png`. -/
theorem C5_extension_amended (url cd ct : String) (now : DateTime) (f ext : String)
    (hcd : pyIn "filename=" cd = false)
    (hf : extract_filenameE url now = UrlResult.ok f)
    (hext : guess_extension (beforeFirstChar ';' ct) = some ext)
    (hne : pyEndsWith f ext = false) :
    rawCandidateE url cd ct now =
      UrlResult.ok (if '.' ∈ f.data
        then String.mk (f.data.takeWhile (fun c => c ≠ '.')) ++ ext
        else f ++ ext) ∧
    resolve_filenameE "https://example.com/photo.txt" "" "image/png" now =
      UrlResult.ok "photo.png" := by
  refine ⟨?_, rfl⟩
  rw [rawCandidateE, if_neg (by simp [hcd]), hf]
  simp only [UrlResult.map, hext, hne, Bool.false_eq_true, if_false]
  by_cases hd : '.' ∈ f.data
  · simp only [if_pos hd, pySplitFirst, pySplitChar_head]
  · simp only [if_neg hd]

/-- Witness for C5 (amended), at the multi-dot URL path. -/
theorem C5_witness :
    rawCandidateE "https://example.com/my.photo.txt" "" "image/png" t0 =
      UrlResult.ok (if '.' ∈ ("my.photo.txt" : String).data
        then String.mk (("my.photo.txt" : String).data.takeWhile (fun c => c ≠ '.')) ++ ".png"
        else "my.photo.txt" ++ ".png") ∧
    resolve_filenameE "https://example.com/photo.txt" "" "image/png" t0 =
      UrlResult.ok "photo.png" :=
  C5_extension_amended "https://example.com/my.photo.txt" "" "image/png" t0
    "my.photo.txt" ".png" (by decide) rfl rfl (by decide)

/-! ### Content-disposition priority (claim C6) -/

/-- C6 (counterexample): the code takes everything after the last
`filename=` and only strips quotes at the two ends, so a
content-disposition that carries a parameter after the filename does not
resolve to `cat.png`: with `attachment; filename="cat.png"; size=5` the
resolved name is `cat.png size5`. -/
theorem C6_counterexample :
    resolve_filenameE "https://example.com/x"
      "attachment; filename=\"cat.png\"; size=5" "image/png" t0 =
      UrlResult.ok "cat.png size5" ∧
    sanitize "cat.png" = "cat.png" ∧
    ("cat.png size5" : String) ≠ "cat.png" :=
  ⟨rfl, by decide, by decide⟩

/-- C6 (amended): for a response whose content-disposition ends with
`filename="cat.png"` (the quoted name being the last token, as in
`attachment; filename="cat.png"`), the resolved filename is exactly
`cat.png`, regardless of the response content type — content-type
extension inference is never applied to a disposition-supplied name. -/
theorem C6_disposition_authoritative (url ct : String) (now : DateTime) :
    resolve_filenameE url "attachment; filename=\"cat.png\"" ct now =
      UrlResult.ok "cat.png" := rfl

/-! ### URL-derived filenames and the generated fallback (claim C7) -/

theorem generated_shape (now : DateTime) (hy : now.year < 10000)
    (hmo : now.month < 100) (hd : now.day < 100) (hh : now.hour < 100)
    (hmi : now.minute < 100) (hs : now.second < 100) :
    ∃ d8 d6 : List Char,
      "image_" ++ timestamp now ++ ".jpg" =
        "image_" ++ String.mk d8 ++ "_" ++ String.mk d6 ++ ".jpg" ∧
      d8.length = 8 ∧ d6.length = 6 ∧ (d8 ++ d6).all Char.isDigit = true := by
  refine ⟨padDigits 4 now.year ++ padDigits 2 now.month ++ padDigits 2 now.day,
    padDigits 2 now.hour ++ padDigits 2 now.minute ++ padDigits 2 now.second,
    ?_, ?_, ?_, ?_⟩
  · apply string_eq_of_data
    simp [String.data_append, timestamp]
  · have h1 : (padDigits 4 now.year).length = 4 :=
      padDigits_length 3 (show now.year < 10 ^ (3 + 1) by simpa using hy)
    have h2 : (padDigits 2 now.month).length = 2 :=
      padDigits_length 1 (show now.month < 10 ^ (1 + 1) by simpa using hmo)
    have h3 : (padDigits 2 now.day).length = 2 :=
      padDigits_length 1 (show now.day < 10 ^ (1 + 1) by simpa using hd)
    simp only [List.length_append]
    omega
  · have h1 : (padDigits 2 now.hour).length = 2 :=
      padDigits_length 1 (show now.hour < 10 ^ (1 + 1) by simpa using hh)
    have h2 : (padDigits 2 now.minute).length = 2 :=
      padDigits_length 1 (show now.minute < 10 ^ (1 + 1) by simpa using hmi)
    have h3 : (padDigits 2 now.second).length = 2 :=
      padDigits_length 1 (show now.second < 10 ^ (1 + 1) by simpa using hs)
    simp only [List.length_append]
    omega
  · rw [List.all_eq_true]
    intro c hc
    simp only [List.mem_append] at hc
    rcases hc with ((h | h) | h) | (h | h) | h <;> exact padDigits_digits h

/-- C7 (counterexample): the claim quantifies over every URL, but the code
only takes the URL path segment when the decoded path contains a slash;
`http:a.png` has decoded path `a.png`, whose final (only) segment contains
a dot, yet the resolver generates a timestamp name instead of `a.png`. -/
theorem C7_counterexample :
    urlparsePathE "http:a.png" = UrlResult.ok "a.png" ∧
    pyUnquote "a.png" = "a.png" ∧
    '.' ∈ (pySplitLast '/' "a.png").data ∧
    extract_filenameE "http:a.png" t0 = UrlResult.ok "image_20260102_030405.jpg" ∧
    ("image_20260102_030405.jpg" : String) ≠ "a.png" :=
  ⟨rfl, by decide, by decide, rfl, by decide⟩

/-- C7 (amended): for every URL the modelled `urlparse` accepts (yielding
the path attribute `q`, with the parameter cut applied only for
`uses_params` schemes) and every valid clock reading, when the
URL-decoded path contains a slash and its final segment contains a dot,
the resolver returns exactly that segment; in every other case it
generates `image_<8 digits>_<6 digits>.jpg` (fourteen timestamp digits)
from the current local time. -/
theorem C7_amended (url : String) (now : DateTime) (q : String)
    (hok : urlparsePathE url = UrlResult.ok q)
    (hy : now.year < 10000) (hmo : now.month < 100) (hd : now.day < 100)
    (hh : now.hour < 100) (hmi : now.minute < 100) (hs : now.second < 100) :
    (('/' ∈ (pyUnquote q).data ∧ '.' ∈ (pySplitLast '/' (pyUnquote q)).data) →
      extract_filenameE url now = UrlResult.ok (pySplitLast '/' (pyUnquote q))) ∧
    (¬('/' ∈ (pyUnquote q).data ∧ '.' ∈ (pySplitLast '/' (pyUnquote q)).data) →
      ∃ d8 d6 : List Char,
        extract_filenameE url now =
          UrlResult.ok ("image_" ++ String.mk d8 ++ "_" ++ String.mk d6 ++ ".jpg") ∧
        d8.length = 8 ∧ d6.length = 6 ∧ (d8 ++ d6).all Char.isDigit = true) := by
  have hex : extract_filenameE url now =
      UrlResult.ok (
        if pyUnquote q ≠ "" ∧ '/' ∈ (pyUnquote q).data then
          if pySplitLast '/' (pyUnquote q) ≠ "" ∧
              '.' ∈ (pySplitLast '/' (pyUnquote q)).data then
            pySplitLast '/' (pyUnquote q)
          else "image_" ++ timestamp now ++ ".jpg"
        else "image_" ++ timestamp now ++ ".jpg") := by
    rw [extract_filenameE, hok]; rfl
  constructor
  · rintro ⟨hslash, hdot⟩
    have hne : pyUnquote q ≠ "" := by
      intro h; rw [h] at hslash; exact absurd hslash (by decide)
    have hne2 : pySplitLast '/' (pyUnquote q) ≠ "" := by
      intro h; rw [h] at hdot; exact absurd hdot (by decide)
    rw [hex, if_pos ⟨hne, hslash⟩, if_pos ⟨hne2, hdot⟩]
  · intro hno
    obtain ⟨d8, d6, hshape, h8, h6, hdig⟩ :=
      generated_shape now hy hmo hd hh hmi hs
    refine ⟨d8, d6, ?_, h8, h6, hdig⟩
    rw [hex, ← hshape]
    by_cases hslash : '/' ∈ (pyUnquote q).data
    · have hdot : ¬ '.' ∈ (pySplitLast '/' (pyUnquote q)).data :=
        fun hd2 => hno ⟨hslash, hd2⟩
      have hne : pyUnquote q ≠ "" := by
        intro h; rw [h] at hslash; exact absurd hslash (by decide)
      rw [if_pos ⟨hne, hslash⟩, if_neg (fun hc => hdot hc.2)]
    · rw [if_neg (fun hc => hslash hc.2)]

/-- Witness for C7 (amended), at a URL with no path. -/
theorem C7_witness :
    (('/' ∈ (pyUnquote "").data ∧
        '.' ∈ (pySplitLast '/' (pyUnquote "")).data) →
      extract_filenameE "https://example.com" t0 =
        UrlResult.ok (pySplitLast '/' (pyUnquote ""))) ∧
    (¬('/' ∈ (pyUnquote "").data ∧
        '.' ∈ (pySplitLast '/' (pyUnquote "")).data) →
      ∃ d8 d6 : List Char,
        extract_filenameE "https://example.com" t0 =
          UrlResult.ok ("image_" ++ String.mk d8 ++ "_" ++ String.mk d6 ++ ".jpg") ∧
        d8.length = 8 ∧ d6.length = 6 ∧ (d8 ++ d6).all Char.isDigit = true) :=
  C7_amended "https://example.com" t0 "" rfl
    (by decide) (by decide) (by decide) (by decide) (by decide) (by decide)

/-! ### Totality of the resolver (claim C8) -/

theorem image_append_ne_empty (t : String) : ("image_" ++ t) ≠ "" := by
  intro h
  have h2 := congrArg String.length h
  rw [String.length_append] at h2
  have h3 : String.length "image_" = 6 := rfl
  have h4 : String.length "" = 0 := rfl
  omega

theorem rawCandidateE_ok (url cd ct : String) (now : DateTime)
    (u : String × String × String) (hok : urlsplitE url = UrlResult.ok u) :
    ∃ raw, rawCandidateE url cd ct now = UrlResult.ok raw := by
  rw [rawCandidateE]
  by_cases hcd : pyIn "filename=" cd = true
  · rw [if_pos hcd]
    exact ⟨_, rfl⟩
  · rw [if_neg hcd]
    have hex : ∃ f, extract_filenameE url now = UrlResult.ok f := by
      rw [extract_filenameE, urlparsePathE, hok]
      exact ⟨_, rfl⟩
    obtain ⟨f, hf⟩ := hex
    rw [hf]
    exact ⟨_, rfl⟩

/-- C8 (counterexample): a step of the resolver can fail: `urlparse`
raises `ValueError` on a URL whose authority has a mismatched square
bracket, and likewise on an authority rejected by `_checknetloc` under
NFKC normalization (`a℀` normalizes to contain `/`), so the resolver
does not return a filename for every URL string. -/
theorem C8_counterexample :
    resolve_filenameE "http://[bad/img.png" "" "image/png" t0 =
      UrlResult.raises "Invalid IPv6 URL" ∧
    resolve_filenameE "http://a℀/img.png" "" "image/png" t0 =
      UrlResult.raises
        "netloc \x27a℀\x27 contains invalid characters under NFKC normalization" :=
  ⟨rfl, rfl⟩

/-- C8 (amended): for every URL the parser accepts — those whose
authority, when present, is bracket-free and all-ASCII; `urlparse`
accepts all of these — and every combination of content-disposition and
content-type headers, the resolver returns a non-empty filename, and when
sanitization leaves the candidate empty the result is the generated
timestamp name without an extension. Outside this domain `urlparse` can
raise `ValueError` (mismatched brackets, or a non-ASCII authority
rejected under NFKC normalization), which the fetch absorbs in its
generic except clause, so resolution is not total. -/
theorem C8_total_amended (url cd ct : String) (now : DateTime)
    (u : String × String × String) (hok : urlsplitE url = UrlResult.ok u) :
    ∃ f, resolve_filenameE url cd ct now = UrlResult.ok f ∧ f ≠ "" ∧
      ∀ raw, rawCandidateE url cd ct now = UrlResult.ok raw → sanitize raw = "" →
        f = "image_" ++ timestamp now := by
  obtain ⟨raw, hraw⟩ := rawCandidateE_ok url cd ct now u hok
  refine ⟨safeName raw now, ?_, ?_, ?_⟩
  · rw [resolve_filenameE, hraw]; rfl
  · rw [safeName]
    by_cases hempty : sanitize raw = ""
    · rw [if_pos hempty]
      exact image_append_ne_empty _
    · rw [if_neg hempty]
      exact hempty
  · intro raw2 hraw2 hempty
    rw [hraw] at hraw2
    injection hraw2 with he
    rw [safeName, if_pos (he ▸ hempty)]

/-- Witness for C8 (amended), at a concrete well-formed URL. -/
theorem C8_witness :
    ∃ f, resolve_filenameE "https://example.com/a.png" "" "image/png" t0 =
        UrlResult.ok f ∧ f ≠ "" ∧
      ∀ raw, rawCandidateE "https://example.com/a.png" "" "image/png" t0 =
          UrlResult.ok raw → sanitize raw = "" →
        f = "image_" ++ timestamp t0 :=
  C8_total_amended "https://example.com/a.png" "" "image/png" t0
    ("https", "example.com", "/a.png") rfl

/-! ### The interactive loop (claim C9) -/

/-- C9 (counterexample): the loop strips the line before validating it, so
a raw input line that does not start with `http://` or `https://` can
still reach the fetcher: `" http://a.png"` (leading space) is handed to
the fetcher as `http://a.png`. -/
theorem C9_counterexample :
    pyStartsWith " http://a.png" "http://" = false ∧
    pyStartsWith " http://a.png" "https://" = false ∧
    main_step " http://a.png" = StepAction.fetch "http://a.png" := by
  refine ⟨by decide, by decide, by decide⟩

/-- C9 (amended): after stripping surrounding whitespace (which the loop
does first), input case-insensitively equal to `quit`, `exit` or `q` at
the first prompt terminates the loop with only the initial directory
creation and the goodbye message as effects — no network call; and the
fetcher is never invoked when the stripped input is empty or does not
start with `http://` or `https://` — such input (unless it is a quit
command) only emits a warning and reprompts. -/
theorem C9_loop_amended (line : String) (rest : List String) :
    (pyLower (pyStrip line) ∈ ["quit", "exit", "q"] →
      main_run true (line :: rest) =
        [Event.dirCreate "Fetched_Images",
         Event.printed "👋 Thank you for using Image Fetcher!"]) ∧
    ((pyStrip line = "" ∨ (pyStartsWith (pyStrip line) "http://" = false ∧
        pyStartsWith (pyStrip line) "https://" = false)) →
      (∀ u, main_step line ≠ StepAction.fetch u) ∧
      (pyLower (pyStrip line) ∉ ["quit", "exit", "q"] →
        ∃ m, main_step line = StepAction.warn m)) := by
  constructor
  · intro hq
    simp [main_run, main_loop, main_step, hq]
  · intro hbad
    by_cases hq : pyLower (pyStrip line) ∈ ["quit", "exit", "q"]
    · refine ⟨fun u => ?_, fun hq2 => absurd hq hq2⟩
      simp [main_step, hq]
    · have hstep : ∃ m, main_step line = StepAction.warn m := by
        by_cases he : pyStrip line = ""
        · refine ⟨"⚠️  Please enter a valid URL", ?_⟩
          simp only [main_step, he]
          rw [if_neg (by decide)]
          simp
        · rcases hbad with hempty | ⟨h1, h2⟩
          · exact absurd hempty he
          · refine ⟨"⚠️  URL must start with http:// or https://", ?_⟩
            simp only [main_step]
            rw [if_neg hq, if_neg he, if_pos (by rw [h1, h2]; simp)]
      obtain ⟨m, hm⟩ := hstep
      exact ⟨fun u => by simp [hm], fun _ => ⟨m, hm⟩⟩

/-- Witness for C9 (amended), at the inputs `"QUIT"` and `"not-a-url"`. -/
theorem C9_witness :
    main_run true ["QUIT"] =
      [Event.dirCreate "Fetched_Images",
       Event.printed "👋 Thank you for using Image Fetcher!"] ∧
    (∀ u, main_step "not-a-url" ≠ StepAction.fetch u) ∧
    (∃ m, main_step "not-a-url" = StepAction.warn m) := by
  have h1 := (C9_loop_amended "QUIT" []).1 (by decide)
  have h2 := (C9_loop_amended "not-a-url" []).2 (by right; exact ⟨by decide, by decide⟩)
  exact ⟨h1, h2.1, h2.2 (by decide)⟩

/-! ### The confirmation answer (claim C10) -/

theorem resolve_filenameE_ok (url cd ct : String) (now : DateTime)
    (u : String × String × String) (hok : urlsplitE url = UrlResult.ok u) :
    ∃ f, resolve_filenameE url cd ct now = UrlResult.ok f := by
  obtain ⟨raw, hraw⟩ := rawCandidateE_ok url cd ct now u hok
  exact ⟨safeName raw now, by rw [resolve_filenameE, hraw]; rfl⟩

/-- C10: in the non-image confirmation prompt the download proceeds
exactly when the lowercased answer is the single character `y` (so `Y`
also continues), and every other answer — `yes` included — cancels,
reporting the cancellation message. -/
theorem C10_confirm_letter (url answer dir : String) (resp : Response)
    (ex : List String) (now : DateTime) (s nl p : String)
    (hurl : urlsplitE url = UrlResult.ok (s, nl, p))
    (hct : pyStartsWith resp.contentType "image/" = false) :
    ((download_image url (.ok resp) answer ex now dir).1 = true ↔
      pyLower answer = "y") ∧
    (pyLower answer ≠ "y" →
      cancelMsg ∈ (download_image url (.ok resp) answer ex now dir).2) := by
  by_cases hy : pyLower answer = "y"
  · obtain ⟨f, hres⟩ :=
      resolve_filenameE_ok url resp.contentDisposition resp.contentType now (s, nl, p) hurl
    simp only [download_image, hurl]
    rw [if_neg (fun hc => hc.2 hy), hres]
    exact ⟨by simp [hy], fun hc => absurd hy hc⟩
  · simp only [download_image, hurl]
    rw [if_pos ⟨hct, hy⟩]
    exact ⟨by simp [hy], fun _ => by simp⟩

/-- Witness for C10, at the answers `"Y"` (continues) and `"yes"`
(cancels). -/
theorem C10_witness :
    ((download_image "https://example.com/a.png" (.ok ⟨"text/html", ""⟩) "Y"
        [] t0 "Fetched_Images").1 = true ↔ pyLower "Y" = "y") ∧
    ((download_image "https://example.com/a.png" (.ok ⟨"text/html", ""⟩) "yes"
        [] t0 "Fetched_Images").1 = true ↔ pyLower "yes" = "y") ∧
    cancelMsg ∈ (download_image "https://example.com/a.png" (.ok ⟨"text/html", ""⟩)
      "yes" [] t0 "Fetched_Images").2 := by
  have h1 := C10_confirm_letter "https://example.com/a.png" "Y" "Fetched_Images"
    ⟨"text/html", ""⟩ [] t0 "https" "example.com" "/a.png" rfl (by decide)
  have h2 := C10_confirm_letter "https://example.com/a.png" "yes" "Fetched_Images"
    ⟨"text/html", ""⟩ [] t0 "https" "example.com" "/a.png" rfl (by decide)
  exact ⟨h1.1, h2.1, h2.2 (by decide)⟩

end ImageFetcher
